import Mathlib

/-!
Verification development for the VideoCombine media-assembly pipeline
(`src/main.py`).  The Python source is shallowly embedded: pure helper
functions become Lean functions over `ℚ` (exact time arithmetic in place of
Python floats), `String` and `List`; the effectful pipeline endpoints become
functions from an explicit environment of collaborator outcomes (download,
verification, transcription, renderer) to a trace of observable events.
-/

/- ## Python-semantics helpers -/

/-- Python `int()` applied to a nonnegative-or-negative rational: truncation
toward zero (`int(word_duration * 100)` in `words_to_karaoke_ass`). -/
def pyTrunc (q : ℚ) : ℤ :=
  if q < 0 then -(Int.floor (-q)) else Int.floor q

/-- Python 3 `round()` to an integer: round half to even (banker's rounding),
used by `format_time_precise` and `format_srt_time_precise`. -/
def pyRound (q : ℚ) : ℤ :=
  let f := Int.floor q
  let r := q - (f : ℚ)
  if r < 1/2 then f
  else if r > 1/2 then f + 1
  else if f % 2 = 0 then f else f + 1

/-- Characters stripped by Python `str.strip()` with no argument. -/
def pyIsSpace (c : Char) : Bool :=
  c == ' ' || c == '\t' || c == '\n' || c == '\r' || c == '\x0b' || c == '\x0c'

/-- Python `str.strip()`: drop leading and trailing whitespace. -/
def pyStrip (s : String) : String :=
  (((s.toList.dropWhile pyIsSpace).reverse.dropWhile pyIsSpace).reverse).asString

/-- Substring test on lists (Python `needle in hay` for `str`/`bytes`),
scanning left to right. -/
def listContains {α : Type} [BEq α] (needle : List α) : List α → Bool
  | [] => needle.isEmpty
  | c :: tl => needle.isPrefixOf (c :: tl) || listContains needle tl

/-- Python `needle in hay` on strings. -/
def containsSub (hay needle : String) : Bool :=
  listContains needle.toList hay.toList

/-- Python slice `s[:n]`. -/
def strTake (s : String) (n : Nat) : String :=
  (s.toList.take n).asString

/-- Python `s.startswith(pre)`. -/
def pyStartsWith (s pre : String) : Bool :=
  pre.toList.isPrefixOf s.toList

/-- Python falsiness of a string (`not s`): emptiness. -/
def pyFalsy (s : String) : Bool :=
  s.toList.isEmpty

/-- Python format `{:02d}` for a natural number. -/
def pad2 (n : ℕ) : String :=
  if n < 10 then "0" ++ toString n else toString n

/-- Python format `{:03d}` for a natural number. -/
def pad3 (n : ℕ) : String :=
  if n < 10 then "00" ++ toString n
  else if n < 100 then "0" ++ toString n
  else toString n

/-- Python float floor-division `a // b`, which yields a (float-valued)
integer. -/
def qFloorDiv (a b : ℚ) : ℚ :=
  ((Int.floor (a / b) : ℤ) : ℚ)

/-- Python float modulo `a % b` (`a - b * (a // b)`). -/
def qMod (a b : ℚ) : ℚ :=
  a - b * qFloorDiv a b

/- ## Transcript data model

`faster_whisper` words carry `word` (text), `start` and `end`; `end` is a
Lean keyword, so the field is named `end_`.  Segments carry `start`, `end`,
the validated word list, and a `text` attribute (the empty string standing
for a missing/falsy attribute, matching Python truthiness at the use sites).
-/

structure Word where
  word : String
  start : ℚ
  end_ : ℚ
  deriving DecidableEq, Repr, Inhabited

structure Segment where
  start : ℚ
  end_ : ℚ
  words : List Word
  text : String
  deriving DecidableEq, Repr, Inhabited

/-- Cue of a subtitle track: start time, end time, rendered text.  For the
karaoke format the text is the `{\k..}`-tagged payload of the Dialogue line;
for the SRT format it is the plain chunk text. -/
structure Cue where
  start : ℚ
  end_ : ℚ
  text : String
  deriving DecidableEq, Repr

/-- Python `lst[-1]` on a word list; the `[]` case is unreachable at every
call site (all callers establish nonemptiness) and returns a dummy word. -/
def lastWord : List Word → Word
  | [] => ⟨"", 0, 0⟩
  | [w] => w
  | _ :: w :: ws => lastWord (w :: ws)

/- ## Karaoke (ASS) synthesis, from `words_to_karaoke_ass` -/

/-- Effective word duration (`words_to_karaoke_ass` lines 372–376):
`end - start`, with `end` clamped to `max_time` when it overruns the cap. -/
def effDur (wstart wend : ℚ) (max_time : Option ℚ) : ℚ :=
  match max_time with
  | some t => if wend > t then t - wstart else wend - wstart
  | none => wend - wstart

/-- Per-word highlight duration in centiseconds (`words_to_karaoke_ass`
lines 372–384): clamp to the cap, raise to the 0.1 s minimum, convert with
`int(_ * 100)` (truncation), and force the result to be at least 1. -/
def wordDurationCentis (wstart wend : ℚ) (max_time : Option ℚ) : ℤ :=
  let word_duration := effDur wstart wend max_time
  let word_duration := if word_duration < 1/10 then (1/10 : ℚ) else word_duration
  max 1 (pyTrunc (word_duration * 100))

/-- Test `max_time is not None and word.start >= max_time`. -/
def wordBeyond (max_time : Option ℚ) (w : Word) : Bool :=
  match max_time with
  | some t => decide (w.start ≥ t)
  | none => false

/-- Karaoke text of one segment with word timing (`words_to_karaoke_ass`
lines 366–391): per word, skip it when it starts at or past the cap,
otherwise append `{\kNN}` and the word text verbatim when that text is
nonempty. -/
def karaokeWordText (max_time : Option ℚ) : List Word → String
  | [] => ""
  | w :: rest =>
    let restText := karaokeWordText max_time rest
    if wordBeyond max_time w then restText
    else if w.word ≠ "" then
      "\x7b\\k" ++ toString (wordDurationCentis w.start w.end_ max_time) ++ "\x7d"
        ++ w.word ++ restText
    else restText

/-- Character-level fallback text for a segment without word timing
(`words_to_karaoke_ass` lines 404–409). -/
def karaokeCharText (char_duration : ℤ) (chars : List Char) : String :=
  match chars with
  | [] => ""
  | c :: rest =>
    (if c ≠ ' ' then "\x7b\\k" ++ toString char_duration ++ "\x7d" ++ c.toString
     else "\x7b\\k2\x7d ")
      ++ karaokeCharText char_duration rest

/-- Dialogue cue produced for one (already cap-filtered) segment by
`words_to_karaoke_ass` (lines 355–411): the word branch writes the line only
when the karaoke text is nonblank; the no-words branch distributes the
segment duration over its characters (minimum 5 cs per character, 2 cs per
space) and writes the line whenever the segment text is nonempty. -/
def karaokeSegCue (seg : Segment) (max_time : Option ℚ) : Option Cue :=
  if seg.words ≠ [] then
    let karaoke_text := karaokeWordText max_time seg.words
    if pyStrip karaoke_text ≠ "" then some ⟨seg.start, seg.end_, karaoke_text⟩
    else none
  else
    if seg.text ≠ "" then
      let segment_duration := seg.end_ - seg.start
      let char_duration :=
        max 5 (pyTrunc ((segment_duration * 100) / (seg.text.length : ℚ)))
      some ⟨seg.start, seg.end_, karaokeCharText char_duration seg.text.toList⟩
    else none

/-- Cue list of the ASS file written by `words_to_karaoke_ass`: segments
starting at or past `max_time` are filtered out first (line 349), then each
remaining segment contributes at most one Dialogue line. -/
def karaokeCues (segments : List Segment) (max_time : Option ℚ) : List Cue :=
  let filtered_segments :=
    match max_time with
    | some t => segments.filter (fun (s : Segment) => s.start < t)
    | none => segments
  filtered_segments.filterMap (fun s => karaokeSegCue s max_time)

/-- Format `%05.2f` for the nonnegative centisecond-multiple rational that
`format_time_precise` produces for its seconds component (always `< 60`). -/
def fmt52 (q : ℚ) : String :=
  let c := pyRound (q * 100)
  pad2 (c / 100).toNat ++ "." ++ pad2 (c % 100).toNat

/-- Time encoder of the karaoke format (`format_time_precise`,
`src/main.py` lines 333–340): round to centiseconds, then split with float
floor-division/modulo and print `H:MM:SS.CC`. -/
def format_time_precise (seconds : ℚ) : String :=
  let centiseconds : ℚ := ((pyRound (seconds * 100) : ℤ) : ℚ) / 100
  let hours := pyTrunc (qFloorDiv centiseconds 3600)
  let minutes := pyTrunc (qFloorDiv (qMod centiseconds 3600) 60)
  let secs := qMod centiseconds 60
  toString hours ++ ":" ++ pad2 minutes.toNat ++ ":" ++ fmt52 secs

/- ## SRT fallback synthesis, from `create_enhanced_srt` -/

/-- Time encoder of the SRT format (`format_srt_time_precise`,
`src/main.py` lines 438–449): round to milliseconds, then split with
integer floor-division/modulo and print `HH:MM:SS,mmm`. -/
def format_srt_time_precise (seconds : ℚ) : String :=
  let milliseconds := pyRound (seconds * 1000)
  let total_seconds := Int.fdiv milliseconds 1000
  let millis := Int.fmod milliseconds 1000
  let hours := Int.fdiv total_seconds 3600
  let minutes := Int.fdiv (Int.fmod total_seconds 3600) 60
  let secs := Int.fmod total_seconds 60
  pad2 hours.toNat ++ ":" ++ pad2 minutes.toNat ++ ":" ++ pad2 secs.toNat
    ++ "," ++ pad3 millis.toNat

/-- Clamp `chunk_end`/`seg_end` to the cap (`create_enhanced_srt` lines
493–495 and 515–517). -/
def capTime (max_time : Option ℚ) (t : ℚ) : ℚ :=
  match max_time with
  | some m => if t > m then m else t
  | none => t

/-- Word-grouping loop of `create_enhanced_srt` (lines 469–484): walk the
segment's words, breaking at the first word that starts at or past the cap;
the running chunk is closed once it reaches 4 words, or once it has at
least 2 words and the current word equals the segment's last word.  Returns
the closed chunks and the leftover `current_chunk`. -/
def chunkLoop (lastw : Word) (max_time : Option ℚ) :
    List Word → List Word → List (List Word) × List Word
  | [], current_chunk => ([], current_chunk)
  | w :: rest, current_chunk =>
    if wordBeyond max_time w then ([], current_chunk)
    else
      let cur := current_chunk ++ [w]
      if 4 ≤ cur.length ∨ (2 ≤ cur.length ∧ w = lastw) then
        let r := chunkLoop lastw max_time rest []
        (cur :: r.1, r.2)
      else chunkLoop lastw max_time rest cur

/-- Cue produced from one chunk (`create_enhanced_srt` lines 487–510):
start is the first word's start, end is the last word's end clamped to the
cap, text is the concatenation of the chunk's nonempty word texts with
original spacing; an empty text yields no cue. -/
def srtChunkCue (chunk : List Word) (max_time : Option ℚ) : Option Cue :=
  match chunk with
  | [] => none
  | c0 :: rest =>
    let chunk_end := capTime max_time (lastWord (c0 :: rest)).end_
    let text :=
      String.join ((c0 :: rest).filterMap fun w =>
        if w.word = "" then none else some w.word)
    if text = "" then none else some ⟨c0.start, chunk_end, text⟩

/-- Cues produced for one (already cap-filtered) segment by
`create_enhanced_srt` (lines 461–538).  Segments with more than one timed
word go through the chunking loop, a nonempty leftover chunk being emitted
as a final chunk of its own (lines 482–484); other segments emit at most
one cue from the segment's own text (or joined words), duration-capped. -/
def srtSegCues (seg : Segment) (max_time : Option ℚ) : List Cue :=
  if 1 < seg.words.length then
    let lastw := lastWord seg.words
    let r := chunkLoop lastw max_time seg.words []
    let word_chunks := r.1 ++ (if r.2.isEmpty then [] else [r.2])
    word_chunks.filterMap (fun chunk => srtChunkCue chunk max_time)
  else
    let seg_end := capTime max_time seg.end_
    let text :=
      if seg.text ≠ "" then seg.text
      else if ¬ seg.words.isEmpty then
        String.join (seg.words.filterMap fun w =>
          if w.word = "" then none else some w.word)
      else ""
    if text = "" then [] else [⟨seg.start, seg_end, text⟩]

/-- Cue list of the SRT file written by `create_enhanced_srt`: segments
starting at or past `max_time` are filtered out first (line 458), then each
remaining segment contributes its cues in order; cue indices are the
positions in this list, starting at 1. -/
def srtCues (segments : List Segment) (max_time : Option ℚ) : List Cue :=
  let filtered_segments :=
    match max_time with
    | some t => segments.filter (fun (s : Segment) => s.start < t)
    | none => segments
  filtered_segments.flatMap (fun s => srtSegCues s max_time)

/- ## Asset fetcher, from `download_file` / `download_google_drive_file` /
`extract_file_id_from_url`

The network is an oracle `net : String → HttpResponse`; each embedded fetch
returns its success flag together with the list of URLs actually requested,
in order. -/

/-- Response of one HTTP GET as the fetcher observes it: whether
`raise_for_status` passes, the declared `content-type` header, the body
text, and the number of bytes the streamed download writes to disk. -/
structure HttpResponse where
  ok : Bool
  contentType : String
  body : String
  contentLen : Nat

/-- Character class `[a-zA-Z0-9_-]` of the file-id patterns. -/
def isIdChar (c : Char) : Bool :=
  c.isAlpha || c.isDigit || c == '_' || c == '-'

/-- Model of `re.search(lit + "([a-zA-Z0-9_-]+)", s)`: scan left to right
for the literal followed by at least one id character; capture the maximal
id-character run after the leftmost such occurrence. -/
def searchCapture (lit : List Char) : List Char → Option String
  | [] => none
  | c :: tl =>
    if lit.isPrefixOf (c :: tl) then
      let run := ((c :: tl).drop lit.length).takeWhile isIdChar
      if run.isEmpty then searchCapture lit tl else some run.asString
    else searchCapture lit tl

/-- Model of `extract_file_id_from_url` (`src/main.py` lines 143–156): try
the patterns `id=…`, `/d/…`, `file/d/…` in order, returning the first
captured id, else `None`. -/
def extract_file_id_from_url (url : String) : Option String :=
  match searchCapture "id=".toList url.toList with
  | some m => some m
  | none =>
    match searchCapture "/d/".toList url.toList with
    | some m => some m
    | none => searchCapture "file/d/".toList url.toList

/-- Literal prefix of the interstitial bypass pattern
`href="(/uc\?export=download[^"]*)"`. -/
def hrefLit : List Char := "href=\"/uc?export=download".toList

/-- Model of `re.search(r'href="(/uc\?export=download[^"]*)"', text)`:
find the leftmost occurrence of the literal prefix followed by a
quote-free run and a closing quote; capture the link. -/
def searchHref : List Char → Option String
  | [] => none
  | c :: tl =>
    if hrefLit.isPrefixOf (c :: tl) then
      let rest := (c :: tl).drop hrefLit.length
      let run := rest.takeWhile (fun ch => ch != '"')
      if (rest.drop run.length).head? = some '"' then
        some ("/uc?export=download" ++ run.asString)
      else searchHref tl
    else searchHref tl

/-- One download attempt of `download_google_drive_file` (lines 60–137):
request the candidate URL; on an HTML content type look for the
virus-scan-warning marker in the first 1000 body characters and, when
present and a bypass link is found, re-request through the bypass; an
attempt that still ends on HTML (or whose request raises) fails, otherwise
it succeeds exactly when a nonempty file was written.  Returns the success
flag and the URLs requested. -/
def tryAttempt (net : String → HttpResponse) (download_url : String) :
    Bool × List String :=
  let r := net download_url
  if !r.ok then (false, [download_url])
  else
    let content_type := r.contentType.toLower
    if containsSub content_type "text/html" then
      let response_text := strTake r.body 1000
      if containsSub response_text.toLower "virus scan warning"
          || containsSub response_text "download_warning" then
        match searchHref response_text.toList with
        | some link =>
          let bypass_url := "https://drive.google.com" ++ link.replace "&amp;" "&"
          let r2 := net bypass_url
          if !r2.ok then (false, [download_url, bypass_url])
          else if containsSub r2.contentType.toLower "text/html" then
            (false, [download_url, bypass_url])
          else (decide (0 < r2.contentLen), [download_url, bypass_url])
        | none => (false, [download_url])
      else (false, [download_url])
    else (decide (0 < r.contentLen), [download_url])

/-- Attempt loop over the candidate URLs, stopping at the first success and
accumulating the requested URLs. -/
def tryAll (net : String → HttpResponse) : List String → Bool × List String
  | [] => (false, [])
  | u :: rest =>
    let a := tryAttempt net u
    if a.1 then (true, a.2)
    else
      let b := tryAll net rest
      (b.1, a.2 ++ b.2)

/-- Model of `download_google_drive_file` (lines 37–140): extract the file
id — failing immediately, with no request, when none of the patterns
matches — then try the original URL and the three export-URL variants in
order. -/
def download_google_drive_file (net : String → HttpResponse) (url : String) :
    Bool × List String :=
  match extract_file_id_from_url url with
  | none => (false, [])
  | some file_id =>
    tryAll net
      [url,
       "https://drive.google.com/uc?export=download&id=" ++ file_id,
       "https://drive.google.com/uc?export=download&id=" ++ file_id ++ "&confirm=t",
       "https://docs.google.com/uc?export=download&id=" ++ file_id]

/-- Model of `download_file` (lines 159–183): Google-Drive URLs go through
the multi-strategy path; any other URL is fetched with one plain GET whose
body is written verbatim, succeeding exactly when the request does. -/
def download_file (net : String → HttpResponse) (url : String) :
    Bool × List String :=
  if containsSub url "drive.google.com" then download_google_drive_file net url
  else
    let r := net url
    (r.ok, [url])

/- ## Asset verifier, from `verify_file` -/

/-- Bytes of `b"<html"`. -/
def htmlMarker : List Nat := [60, 104, 116, 109, 108]

/-- Bytes of `b"<!doctype"`. -/
def doctypeMarker : List Nat := [60, 33, 100, 111, 99, 116, 121, 112, 101]

/-- Python `bytes.lower()` on one byte: ASCII upper-case letters map to
lower case. -/
def byteLower (b : Nat) : Nat :=
  if 65 ≤ b ∧ b ≤ 90 then b + 32 else b

/-- Model of `verify_file` (`src/main.py` lines 186–212).  A file is
`none` when the path does not exist, otherwise its byte content.  The check
fails on a missing file, an empty file, or when the lower-cased first 500
bytes contain `<html` or `<!doctype`; the `file_type` argument only feeds
log output and is dropped. -/
def verify_file : Option (List Nat) → Bool
  | none => false
  | some content =>
    if content.length = 0 then false
    else
      let first_bytes := (content.take 500).map byteLower
      if listContains htmlMarker first_bytes
          || listContains doctypeMarker first_bytes then false
      else true

/- ## Pipeline orchestrator, from `combine_media` / `combine_media_short`

The collaborators' outcomes are an environment: whether the download and
the verification of the asset fetched from a given URL succeed, whether
`transcribe_audio` raises, whether each subtitle writer raises, and whether
the FFmpeg render succeeds.  The observable behaviour of one request is the
ordered trace of fetch attempts and the render invocation (with the
subtitle track handed to it), plus the `Done`/`Failed` outcome. -/

/-- Format of a synthesized subtitle track. -/
inductive SubsKind
  | ass
  | srt
  deriving DecidableEq, Repr

/-- Observable pipeline events. -/
inductive Ev
  | fetchAudio (url : String)
  | fetchImage (url : String)
  | render (subs : Option SubsKind)
  deriving DecidableEq, Repr

/-- Outcomes of the external collaborators for one job. -/
structure PipelineEnv where
  downloadOk : String → Bool
  verifyOk : String → Bool
  transcribeRaises : Bool
  assRaises : Bool
  srtRaises : Bool
  renderOk : Bool

/-- Result of one request: the event trace and whether the job ends `Done`
(`true`) or raises (`false`). -/
structure JobResult where
  trace : List Ev
  ok : Bool
  deriving DecidableEq, Repr

/-- Subtitle-generation block shared by both endpoints (`src/main.py`
lines 850–872 and 953–975): transcription and ASS synthesis are attempted;
an ASS failure falls back to SRT; an SRT or transcription failure is caught
by the outer handler, leaving the track absent. -/
def subtitleTrack (env : PipelineEnv) : Option SubsKind :=
  if env.transcribeRaises then none
  else if !env.assRaises then some SubsKind.ass
  else if !env.srtRaises then some SubsKind.srt
  else none

/-- Model of the `/combine` endpoint `combine_media` (lines 795–878): no
URL validation; fetch and verify the audio then the image, failing the job
on the first error; generate subtitles best-effort; then invoke
`process_video` — whose `subs_path` argument is commented out in the
source, so the render always receives no subtitle track. -/
def combine_media (env : PipelineEnv) (audio_url image_url : String) :
    JobResult :=
  if !env.downloadOk audio_url then ⟨[Ev.fetchAudio audio_url], false⟩
  else if !env.verifyOk audio_url then ⟨[Ev.fetchAudio audio_url], false⟩
  else if !env.downloadOk image_url then
    ⟨[Ev.fetchAudio audio_url, Ev.fetchImage image_url], false⟩
  else if !env.verifyOk image_url then
    ⟨[Ev.fetchAudio audio_url, Ev.fetchImage image_url], false⟩
  else
    let _subs_path := subtitleTrack env
    ⟨[Ev.fetchAudio audio_url, Ev.fetchImage image_url, Ev.render none],
     env.renderOk⟩

/-- Model of the `/combine-short` endpoint `combine_media_short` (lines
881–981): reject empty/whitespace or non-http(s) URLs before any fetch;
then fetch, verify, synthesize subtitles best-effort with the 59 s cap, and
invoke `process_video_short` with the synthesized track. -/
def combine_media_short (env : PipelineEnv) (audio_url image_url : String) :
    JobResult :=
  if pyFalsy audio_url || pyFalsy (pyStrip audio_url) then ⟨[], false⟩
  else if pyFalsy image_url || pyFalsy (pyStrip image_url) then ⟨[], false⟩
  else if !(pyStartsWith audio_url "http://" || pyStartsWith audio_url "https://") then
    ⟨[], false⟩
  else if !(pyStartsWith image_url "http://" || pyStartsWith image_url "https://") then
    ⟨[], false⟩
  else if !env.downloadOk audio_url then ⟨[Ev.fetchAudio audio_url], false⟩
  else if !env.verifyOk audio_url then ⟨[Ev.fetchAudio audio_url], false⟩
  else if !env.downloadOk image_url then
    ⟨[Ev.fetchAudio audio_url, Ev.fetchImage image_url], false⟩
  else if !env.verifyOk image_url then
    ⟨[Ev.fetchAudio audio_url, Ev.fetchImage image_url], false⟩
  else
    ⟨[Ev.fetchAudio audio_url, Ev.fetchImage image_url,
      Ev.render (subtitleTrack env)],
     env.renderOk⟩

/-- Environment in which every collaborator succeeds. -/
def envAll : PipelineEnv :=
  ⟨fun _ => true, fun _ => true, false, false, false, true⟩

/-- Environment in which every collaborator fails. -/
def envNoFetch : PipelineEnv :=
  ⟨fun _ => false, fun _ => false, true, true, true, false⟩

/-- Environment in which fetching, verification and rendering succeed but
the speech-to-text collaborator raises. -/
def envTranscribeFails : PipelineEnv :=
  ⟨fun _ => true, fun _ => true, true, false, false, true⟩

/- ## Theorems -/

theorem str_empty_append (s : String) : "" ++ s = s := rfl

theorem str_append_ne_empty (s t : String) (h : s ≠ "") : s ++ t ≠ "" := by
  intro hc
  apply h
  have hd : (s ++ t).data = ("" : String).data := by rw [hc]
  rw [String.data_append] at hd
  have : s.data = [] := (List.append_eq_nil.mp hd).1
  cases s
  simp_all

/-- C6: both time encoders round (not truncate) to their precision:
`125.006` s prints as `0:02:05.01` in the karaoke `H:MM:SS.CC` format and
as `00:02:05,006` in the fallback `HH:MM:SS,mmm` format. -/
theorem time_format_round_values :
    format_time_precise (125006/1000 : ℚ) = "0:02:05.01" ∧
    format_srt_time_precise (125006/1000 : ℚ) = "00:02:05,006" := by
  have hr : pyRound ((125006/1000 : ℚ) * 100) = 12501 := by
    simp only [pyRound]
    norm_num
  have hr2 : pyRound ((125006/1000 : ℚ) * 1000) = 125006 := by
    simp only [pyRound]
    norm_num
  constructor
  · simp only [format_time_precise, hr, qMod, qFloorDiv, fmt52, pyRound, pyTrunc,
      pad2]
    norm_num
    rfl
  · simp only [format_srt_time_precise, hr2, pad2, pad3]
    rfl

/-- C2 counterexample: the karaoke duration conversion truncates rather
than rounds: a word lasting 0.159 s gets duration 15 cs, while
`round(0.159 * 100) = 16`. -/
theorem karaoke_duration_not_round :
    wordDurationCentis 0 (159/1000) none = 15 ∧
    round (((159/1000 : ℚ) - 0) * 100) = 16 := by
  constructor
  · simp only [wordDurationCentis, effDur, pyTrunc]
    norm_num
  · rw [round_eq]
    norm_num

/-- C2 (amended): for a word with `start < end` processed by karaoke
synthesis (its start below the cap when one is set), the emitted duration
in centiseconds is at least 1; when the cap-clamped duration is at least
the 0.1 s floor it equals `⌊duration * 100⌋` (truncation, not rounding),
and when it is below the floor it equals 10. -/
theorem wordDurationCentis_spec (wstart wend : ℚ) (max_time : Option ℚ)
    (hlt : wstart < wend)
    (hcap : ∀ t, max_time = some t → wstart < t) :
    1 ≤ wordDurationCentis wstart wend max_time ∧
    ((1/10 : ℚ) ≤ effDur wstart wend max_time →
      wordDurationCentis wstart wend max_time =
        Int.floor (effDur wstart wend max_time * 100)) ∧
    (effDur wstart wend max_time < 1/10 →
      wordDurationCentis wstart wend max_time = 10) := by
  have hd : 0 < effDur wstart wend max_time := by
    cases max_time with
    | none => simpa [effDur] using sub_pos.mpr hlt
    | some t =>
      simp only [effDur]
      split
      · exact sub_pos.mpr (hcap t rfl)
      · exact sub_pos.mpr hlt
  by_cases h : effDur wstart wend max_time < 1/10
  · have hv : wordDurationCentis wstart wend max_time = 10 := by
      simp only [wordDurationCentis, if_pos h]
      have h10 : pyTrunc ((1/10 : ℚ) * 100) = 10 := by
        simp only [pyTrunc]
        norm_num
      rw [h10]
      omega
    exact ⟨by rw [hv]; norm_num, fun hc => absurd h (not_lt.mpr hc), fun _ => hv⟩
  · have hge : (1/10 : ℚ) ≤ effDur wstart wend max_time := not_lt.mp h
    have hpos : ¬ effDur wstart wend max_time * 100 < 0 :=
      not_lt.mpr (by positivity)
    have hfl : (10 : ℤ) ≤ Int.floor (effDur wstart wend max_time * 100) := by
      rw [Int.le_floor]
      push_cast
      linarith
    have hv : wordDurationCentis wstart wend max_time =
        Int.floor (effDur wstart wend max_time * 100) := by
      simp only [wordDurationCentis, if_neg h, pyTrunc, hpos, ite_false]
      exact max_eq_right (by omega)
    exact ⟨by rw [hv]; omega, fun _ => hv, fun hc => absurd hc h⟩

theorem wordDurationCentis_spec_witness :
    (0 : ℚ) < 1/2 ∧ wordDurationCentis 0 (1/2) none = 50 := by
  refine ⟨by norm_num, ?_⟩
  have h := (wordDurationCentis_spec 0 (1/2) none (by norm_num)
    (fun t ht => nomatch ht)).2.1 (by norm_num [effDur])
  rw [h]
  norm_num [effDur]

/-- C9: `verify_file` succeeds exactly on an existing, nonempty file whose
lower-cased first 500 bytes contain neither `<html` nor `<!doctype`; it
fails exactly on a missing path, an empty file, or a leading HTML/doctype
marker. -/
theorem verify_file_spec (f : Option (List Nat)) :
    verify_file f = true ↔
      ∃ c, f = some c ∧ c ≠ [] ∧
        listContains htmlMarker ((c.take 500).map byteLower) = false ∧
        listContains doctypeMarker ((c.take 500).map byteLower) = false := by
  cases f with
  | none => simp [verify_file]
  | some c =>
    simp only [verify_file]
    by_cases h0 : c.length = 0
    · rw [if_pos h0]
      have : c = [] := List.length_eq_zero.mp h0
      simp [this]
    · rw [if_neg h0]
      have hne : c ≠ [] := fun hc => h0 (by rw [hc]; rfl)
      by_cases hm : (listContains htmlMarker ((c.take 500).map byteLower)
          || listContains doctypeMarker ((c.take 500).map byteLower)) = true
      · rw [if_pos hm]
        simp only [Bool.or_eq_true] at hm
        constructor
        · intro hfalse; cases hfalse
        · rintro ⟨c', hc', _, hh, hd⟩
          cases hc'
          rcases hm with hm | hm
          · rw [hm] at hh; cases hh
          · rw [hm] at hd; cases hd
      · rw [if_neg hm]
        simp only [Bool.or_eq_true, not_or, Bool.not_eq_true] at hm
        exact ⟨fun _ => ⟨c, rfl, hne, hm.1, hm.2⟩, fun _ => rfl⟩

/-- C8: for a URL recognized as a Google-Drive sharing link from which no
file id can be extracted by any of the known patterns, the fetch fails
immediately and issues no network request. -/
theorem gdrive_no_id_no_request (net : String → HttpResponse) (url : String)
    (hhost : containsSub url "drive.google.com" = true)
    (hid : extract_file_id_from_url url = none) :
    download_file net url = (false, []) := by
  simp [download_file, hhost, download_google_drive_file, hid]

theorem gdrive_no_id_no_request_witness :
    containsSub "https://drive.google.com/open" "drive.google.com" = true ∧
    extract_file_id_from_url "https://drive.google.com/open" = none ∧
    download_file (fun _ => ⟨true, "audio/mpeg", "", 1⟩)
      "https://drive.google.com/open" = (false, []) :=
  ⟨by decide, by decide,
   gdrive_no_id_no_request (fun _ => ⟨true, "audio/mpeg", "", 1⟩)
     "https://drive.google.com/open" (by decide) (by decide)⟩

/-- C1 (code bug witnessed): in an environment where every step succeeds —
in particular subtitle synthesis yields a karaoke track — the standard
`/combine` endpoint still invokes the render step with no subtitle track
(its `subs_path` argument is commented out at `src/main.py:878`), while the
vertical-capped `/combine-short` endpoint passes the synthesized track. -/
theorem combine_media_drops_subtitles :
    subtitleTrack envAll = some SubsKind.ass ∧
    combine_media envAll "http://h/a.mp3" "http://h/i.jpg" =
      ⟨[Ev.fetchAudio "http://h/a.mp3", Ev.fetchImage "http://h/i.jpg",
        Ev.render none], true⟩ ∧
    combine_media_short envAll "http://h/a.mp3" "http://h/i.jpg" =
      ⟨[Ev.fetchAudio "http://h/a.mp3", Ev.fetchImage "http://h/i.jpg",
        Ev.render (some SubsKind.ass)], true⟩ :=
  ⟨rfl, rfl, rfl⟩

/-- C3 counterexample: the standard `/combine` endpoint performs no URL
validation: with an empty audio URL it proceeds to attempt the fetch (the
trace records a fetch of `""`) instead of rejecting beforehand, whereas
`/combine-short` rejects the same request with no fetch. -/
theorem combine_media_no_validation :
    combine_media envNoFetch "" "http://h/i.jpg" = ⟨[Ev.fetchAudio ""], false⟩ ∧
    combine_media_short envNoFetch "" "http://h/i.jpg" = ⟨[], false⟩ :=
  ⟨rfl, rfl⟩

/-- C3 (amended): only the `/combine-short` endpoint validates the inbound
request: an empty/whitespace audio or image URL, or one not beginning with
`http://` or `https://`, is rejected there before any fetch is attempted;
the `/combine` endpoint performs no such validation. -/
theorem combine_media_short_validates (env : PipelineEnv)
    (audio_url image_url : String)
    (h : pyFalsy (pyStrip audio_url) = true ∨ pyFalsy (pyStrip image_url) = true ∨
         (pyStartsWith audio_url "http://" || pyStartsWith audio_url "https://") = false ∨
         (pyStartsWith image_url "http://" || pyStartsWith image_url "https://") = false) :
    combine_media_short env audio_url image_url = ⟨[], false⟩ := by
  by_cases h1 : (pyFalsy audio_url || pyFalsy (pyStrip audio_url)) = true
  · simp [combine_media_short, h1]
  · by_cases h2 : (pyFalsy image_url || pyFalsy (pyStrip image_url)) = true
    · simp [combine_media_short, h1, h2]
    · rcases h with h | h | h | h
      · exact absurd (by simp [h]) h1
      · exact absurd (by simp [h]) h2
      · simp [combine_media_short, h1, h2, h]
      · by_cases h3 : (pyStartsWith audio_url "http://"
            || pyStartsWith audio_url "https://") = true
        · simp [combine_media_short, h1, h2, h3, h]
        · simp [combine_media_short, h1, h2, h3]

theorem combine_media_short_validates_witness :
    pyFalsy (pyStrip " ") = true ∧
    combine_media_short envAll " " "http://h/i.jpg" = ⟨[], false⟩ :=
  ⟨rfl,
   combine_media_short_validates envAll " " "http://h/i.jpg" (Or.inl rfl)⟩

/-- C5: for a job whose fetches and verifications succeed and whose render
succeeds, a transcription failure — or failure of both subtitle formats —
leaves the subtitle track absent at the render step and the job still
completes successfully, on both endpoints. -/
theorem subtitle_soft_fail (env : PipelineEnv) (audio_url image_url : String)
    (hda : env.downloadOk audio_url = true) (hva : env.verifyOk audio_url = true)
    (hdi : env.downloadOk image_url = true) (hvi : env.verifyOk image_url = true)
    (hr : env.renderOk = true)
    (hsub : env.transcribeRaises = true ∨
      (env.assRaises = true ∧ env.srtRaises = true))
    (hae : pyFalsy audio_url = false) (hse : pyFalsy (pyStrip audio_url) = false)
    (hie : pyFalsy image_url = false) (hsi : pyFalsy (pyStrip image_url) = false)
    (hu : pyStartsWith audio_url "http://" = true ∨
      pyStartsWith audio_url "https://" = true)
    (hiu : pyStartsWith image_url "http://" = true ∨
      pyStartsWith image_url "https://" = true) :
    combine_media env audio_url image_url =
      ⟨[Ev.fetchAudio audio_url, Ev.fetchImage image_url, Ev.render none], true⟩ ∧
    combine_media_short env audio_url image_url =
      ⟨[Ev.fetchAudio audio_url, Ev.fetchImage image_url, Ev.render none], true⟩ := by
  have hst : subtitleTrack env = none := by
    rcases hsub with h | ⟨ha, hs⟩ <;> simp [subtitleTrack, *]
  constructor
  · simp [combine_media, hda, hva, hdi, hvi, hr]
  · rcases hu with hu | hu <;> rcases hiu with hiu | hiu <;>
      simp [combine_media_short, hda, hva, hdi, hvi, hr, hae, hse, hie, hsi,
        hu, hiu, hst]

theorem subtitle_soft_fail_witness :
    envTranscribeFails.transcribeRaises = true ∧
    combine_media_short envTranscribeFails "http://h/a.mp3" "http://h/i.jpg" =
      ⟨[Ev.fetchAudio "http://h/a.mp3", Ev.fetchImage "http://h/i.jpg",
        Ev.render none], true⟩ :=
  ⟨rfl,
   (subtitle_soft_fail envTranscribeFails "http://h/a.mp3" "http://h/i.jpg"
     rfl rfl rfl rfl rfl (Or.inl rfl) rfl rfl rfl rfl
     (Or.inl rfl) (Or.inl rfl)).2⟩

theorem karaokeSegCue_start {seg : Segment} {mt : Option ℚ} {c : Cue}
    (h : karaokeSegCue seg mt = some c) : c.start = seg.start := by
  simp only [karaokeSegCue] at h
  split at h
  · split at h
    · injection h with h'
      rw [← h']
    · cases h
  · split at h
    · injection h with h'
      rw [← h']
    · cases h

theorem srtChunkCue_start {c0 : Word} {rest : List Word} {mt : Option ℚ} {c : Cue}
    (h : srtChunkCue (c0 :: rest) mt = some c) : c.start = c0.start := by
  simp only [srtChunkCue] at h
  split at h
  · cases h
  · injection h with h'
    rw [← h']

theorem chunkLoop_start_lt (lastw : Word) (T : ℚ) (ws : List Word) :
    ∀ cur : List Word, (∀ w ∈ cur, w.start < T) →
      (∀ ch ∈ (chunkLoop lastw (some T) ws cur).1, ∀ w ∈ ch, w.start < T) ∧
      (∀ w ∈ (chunkLoop lastw (some T) ws cur).2, w.start < T) := by
  induction ws with
  | nil =>
    intro cur hcur
    simp only [chunkLoop]
    exact ⟨by simp, hcur⟩
  | cons w rest ih =>
    intro cur hcur
    simp only [chunkLoop]
    by_cases hb : wordBeyond (some T) w = true
    · rw [if_pos hb]
      exact ⟨by simp, hcur⟩
    · rw [if_neg hb]
      have hw : w.start < T := by
        simp only [wordBeyond, decide_eq_true_eq, ge_iff_le] at hb
        exact lt_of_not_le hb
      have hcur' : ∀ x ∈ cur ++ [w], x.start < T := by
        intro x hx
        rcases List.mem_append.mp hx with hx | hx
        · exact hcur x hx
        · rw [List.mem_singleton.mp hx]; exact hw
      split
      · constructor
        · intro ch hch
          rcases List.mem_cons.mp hch with hch | hch
          · rw [hch]; exact hcur'
          · exact ((ih [] (by simp)).1) ch hch
        · exact (ih [] (by simp)).2
      · exact ih (cur ++ [w]) hcur'

/-- C4: in both subtitle formats, every cue of a track built with duration
cap `T` has its start time at most `T` (karaoke cues start at the start of
a cap-filtered segment; SRT cues start either there or at a word that
passed the cap check in the grouping loop). -/
theorem cue_start_le_cap (segments : List Segment) (T : ℚ) (c : Cue)
    (h : c ∈ karaokeCues segments (some T) ∨ c ∈ srtCues segments (some T)) :
    c.start ≤ T := by
  rcases h with h | h
  · simp only [karaokeCues] at h
    rw [List.mem_filterMap] at h
    obtain ⟨s, hs, hc⟩ := h
    rw [List.mem_filter] at hs
    have h1 : c.start = s.start := karaokeSegCue_start hc
    have h2 : s.start < T := by simpa using hs.2
    rw [h1]
    exact le_of_lt h2
  · simp only [srtCues] at h
    rw [List.mem_flatMap] at h
    obtain ⟨s, hs, hc⟩ := h
    rw [List.mem_filter] at hs
    have hsT : s.start < T := by simpa using hs.2
    simp only [srtSegCues] at hc
    split at hc
    · rw [List.mem_filterMap] at hc
      obtain ⟨chunk, hchunk, hcc⟩ := hc
      have hall := chunkLoop_start_lt (lastWord s.words) T s.words [] (by simp)
      have hwlt : ∀ w ∈ chunk, w.start < T := by
        rcases List.mem_append.mp hchunk with hm | hm
        · exact hall.1 chunk hm
        · split at hm
          · cases hm
          · rw [List.mem_singleton.mp hm]
            exact hall.2
      match chunk, hcc with
      | c0 :: rest, hcc =>
        have := srtChunkCue_start hcc
        rw [this]
        exact le_of_lt (hwlt c0 (List.mem_cons_self _ _))
    · split_ifs at hc
      all_goals
        first
          | (rw [List.mem_singleton.mp hc]; exact le_of_lt hsT)
          | cases hc

theorem cue_start_le_cap_witness :
    (⟨0, 2, "hello"⟩ : Cue) ∈ srtCues [⟨0, 2, [], "hello"⟩] (some 59) ∧
    ((⟨0, 2, "hello"⟩ : Cue).start ≤ 59) := by
  have hmem : (⟨0, 2, "hello"⟩ : Cue) ∈ srtCues [⟨0, 2, [], "hello"⟩] (some 59) := by
    simp only [srtCues, srtSegCues, capTime, List.filter, List.flatMap]
    norm_num
    decide
  exact ⟨hmem, cue_start_le_cap [⟨0, 2, [], "hello"⟩] 59 ⟨0, 2, "hello"⟩
    (Or.inr hmem)⟩

/-- C7: a segment with exactly 7 timed words, all inside the cap (and, as
the code's end-of-segment test is value equality with the last word, none
of the earlier words equal to it), produces exactly 2 SRT cues: words 1–4
and words 5–7, each cue spanning its chunk's first start to last end. -/
theorem srt_seven_word_chunks
    (s e T : ℚ) (txt : String) (w1 w2 w3 w4 w5 w6 w7 : Word)
    (hs : s < T)
    (h1 : w1.start < T) (h2 : w2.start < T) (h3 : w3.start < T)
    (h4 : w4.start < T) (h5 : w5.start < T) (h6 : w6.start < T)
    (h7 : w7.start < T)
    (he4 : w4.end_ ≤ T) (he7 : w7.end_ ≤ T)
    (ht1 : w1.word ≠ "") (ht2 : w2.word ≠ "") (ht3 : w3.word ≠ "")
    (ht4 : w4.word ≠ "") (ht5 : w5.word ≠ "") (ht6 : w6.word ≠ "")
    (ht7 : w7.word ≠ "")
    (hn2 : w2 ≠ w7) (hn3 : w3 ≠ w7) (hn4 : w4 ≠ w7) (hn5 : w5 ≠ w7)
    (hn6 : w6 ≠ w7) :
    srtCues [⟨s, e, [w1, w2, w3, w4, w5, w6, w7], txt⟩] (some T) =
      [⟨w1.start, w4.end_, w1.word ++ w2.word ++ w3.word ++ w4.word⟩,
       ⟨w5.start, w7.end_, w5.word ++ w6.word ++ w7.word⟩] := by
  have hlw : lastWord [w1, w2, w3, w4, w5, w6, w7] = w7 := by simp [lastWord]
  have hcl : chunkLoop w7 (some T) [w1, w2, w3, w4, w5, w6, w7] [] =
      ([[w1, w2, w3, w4], [w5, w6, w7]], []) := by
    simp [chunkLoop, wordBeyond, not_le.mpr h1, not_le.mpr h2, not_le.mpr h3,
      not_le.mpr h4, not_le.mpr h5, not_le.mpr h6, not_le.mpr h7,
      hn2, hn3, hn4, hn5, hn6]
  have htA : w1.word ++ w2.word ++ w3.word ++ w4.word ≠ "" :=
    str_append_ne_empty _ _ (str_append_ne_empty _ _ (str_append_ne_empty _ _ ht1))
  have htB : w5.word ++ w6.word ++ w7.word ≠ "" :=
    str_append_ne_empty _ _ (str_append_ne_empty _ _ ht5)
  simp [srtCues, srtSegCues, hs, hlw, hcl, srtChunkCue, lastWord, capTime,
    String.join, str_empty_append, not_lt.mpr he4, not_lt.mpr he7,
    ht1, ht2, ht3, ht4, ht5, ht6, ht7, htA, htB]

theorem srt_seven_word_chunks_witness :
    srtCues [⟨0, 7, [⟨"a ", 0, 1⟩, ⟨"b ", 1, 2⟩, ⟨"c ", 2, 3⟩, ⟨"d ", 3, 4⟩,
        ⟨"e ", 4, 5⟩, ⟨"f ", 5, 6⟩, ⟨"g", 6, 7⟩], "abc"⟩] (some 59) =
      [⟨0, 4, "a " ++ "b " ++ "c " ++ "d "⟩, ⟨4, 7, "e " ++ "f " ++ "g"⟩] :=
  srt_seven_word_chunks 0 7 59 "abc" _ _ _ _ _ _ _
    (by norm_num) (by norm_num) (by norm_num) (by norm_num) (by norm_num)
    (by norm_num) (by norm_num) (by norm_num) (by norm_num) (by norm_num)
    (by decide) (by decide) (by decide) (by decide) (by decide) (by decide)
    (by decide)
    (fun h => absurd (congrArg Word.word h) (by decide))
    (fun h => absurd (congrArg Word.word h) (by decide))
    (fun h => absurd (congrArg Word.word h) (by decide))
    (fun h => absurd (congrArg Word.word h) (by decide))
    (fun h => absurd (congrArg Word.word h) (by decide))

/-- C10: with no cap, a 5-word segment leaves a leftover single-word chunk
after the main grouping loop, and that leftover is emitted as a final cue
of its own: the track is exactly a 4-word cue followed by a 1-word cue,
below the stated 3-word minimum chunk size. -/
theorem srt_leftover_single_word
    (s e : ℚ) (txt : String) (w1 w2 w3 w4 w5 : Word)
    (ht1 : w1.word ≠ "") (ht2 : w2.word ≠ "") (ht3 : w3.word ≠ "")
    (ht4 : w4.word ≠ "") (ht5 : w5.word ≠ "")
    (hn2 : w2 ≠ w5) (hn3 : w3 ≠ w5) (hn4 : w4 ≠ w5) :
    srtCues [⟨s, e, [w1, w2, w3, w4, w5], txt⟩] none =
      [⟨w1.start, w4.end_, w1.word ++ w2.word ++ w3.word ++ w4.word⟩,
       ⟨w5.start, w5.end_, w5.word⟩] := by
  have hlw : lastWord [w1, w2, w3, w4, w5] = w5 := by simp [lastWord]
  have hcl : chunkLoop w5 none [w1, w2, w3, w4, w5] [] =
      ([[w1, w2, w3, w4]], [w5]) := by
    simp [chunkLoop, wordBeyond, hn2, hn3, hn4]
  have htA : w1.word ++ w2.word ++ w3.word ++ w4.word ≠ "" :=
    str_append_ne_empty _ _ (str_append_ne_empty _ _ (str_append_ne_empty _ _ ht1))
  simp [srtCues, srtSegCues, hlw, hcl, srtChunkCue, lastWord, capTime,
    String.join, str_empty_append, ht1, ht2, ht3, ht4, ht5, htA]

theorem srt_leftover_single_word_witness :
    srtCues [⟨0, 5, [⟨"a ", 0, 1⟩, ⟨"b ", 1, 2⟩, ⟨"c ", 2, 3⟩, ⟨"d ", 3, 4⟩,
        ⟨"e", 4, 5⟩], ""⟩] none =
      [⟨0, 4, "a " ++ "b " ++ "c " ++ "d "⟩, ⟨4, 5, "e"⟩] :=
  srt_leftover_single_word 0 5 "" _ _ _ _ _
    (by decide) (by decide) (by decide) (by decide) (by decide)
    (fun h => absurd (congrArg Word.word h) (by decide))
    (fun h => absurd (congrArg Word.word h) (by decide))
    (fun h => absurd (congrArg Word.word h) (by decide))
